import Mathlib

/-!
Verification development for `update_feed.js`, a one-shot batch program that
exports a point-of-sale catalog and inventory into a pipe-delimited
Wine-Searcher feed file.

The JavaScript source is shallowly embedded: strings are Lean `String`s
(sequences of Unicode code points), pure helper functions become Lean
functions, the two HTTP calls and the file write are modelled by an explicit
effect trace, and JS `undefined`/missing JSON fields become `Option`.
JS `toLowerCase`, `trim` and the regex classes `\d`, `\w`, `\b` are modelled
over their ASCII behaviour (the only behaviour the program's patterns and
literals exercise).
-/

namespace WinesearcherFeed

/-- ASCII word character, the JS regex class `\w` = `[A-Za-z0-9_]`. -/
def jsWordChar (c : Char) : Bool :=
  c.isAlphanum || c == '_'

/-- Whitespace recognised by the model of JS `String.prototype.trim`
(space, tab, line feed, carriage return, vertical tab, form feed,
no-break space, BOM, line separator, paragraph separator). -/
def jsWs (c : Char) : Bool :=
  c == ' ' || c == '\t' || c == '\n' || c == '\r' || c == '\x0b' ||
  c == '\x0c' || c == '\u00A0' || c == '\uFEFF' || c == '\u2028' || c == '\u2029'

/-- Remove leading and trailing whitespace from a character list. -/
def trimChars (l : List Char) : List Char :=
  ((l.dropWhile jsWs).reverse.dropWhile jsWs).reverse

/-- Model of JS `s.trim()`. -/
def jsTrim (s : String) : String :=
  String.mk (trimChars s.data)

/-- Model of JS `s.toLowerCase()` (ASCII range; the program only compares
against ASCII literals). -/
def jsToLowerStr (s : String) : String :=
  String.mk (s.data.map Char.toLower)

/-- Substring containment on character lists: does `pat` occur contiguously
in `hay`?  Model of JS `hay.includes(pat)`. -/
def containsSub (hay pat : List Char) : Bool :=
  if pat.isPrefixOf hay then true
  else
    match hay with
    | [] => false
    | _ :: t => containsSub t pat

/-- Model of JS `hay.includes(pat)` on strings. -/
def containsStr (hay pat : String) : Bool :=
  containsSub hay.data pat.data

/-- Model of JS `Array.prototype.join(sep)` for an array of strings. -/
def jsJoin (sep : String) : List String → String
  | [] => ""
  | [a] => a
  | a :: b :: rest => a ++ sep ++ jsJoin sep (b :: rest)

/-- Concatenation of a list of strings (spec-side helper). -/
def strConcat (l : List String) : String :=
  l.foldr (fun a b => a ++ b) ""

/-- Split a character list at every occurrence of the separator character;
model of JS `s.split(sep)` for a one-character separator. -/
def splitChar (sep : Char) : List Char → List (List Char)
  | [] => [[]]
  | c :: rest =>
    let r := splitChar sep rest
    if c == sep then [] :: r
    else
      match r with
      | [] => [[c]]
      | h :: t => (c :: h) :: t

/-- Model of JS `s.split(sep)` for a one-character separator. -/
def jsSplit (sep : Char) (s : String) : List String :=
  (splitChar sep s.data).map String.mk

/-- Decimal digit characters of a natural number, most significant first;
fuel-indexed so that the recursion is structural. -/
def natCharsAux : Nat → Nat → List Char
  | 0, _ => []
  | fuel + 1, n =>
    if n < 10 then [Nat.digitChar n]
    else natCharsAux fuel (n / 10) ++ [Nat.digitChar (n % 10)]

/-- Decimal digit characters of a natural number, most significant first. -/
def natChars (n : Nat) : List Char :=
  natCharsAux (n + 1) n

/-- Decimal rendering of a natural number; model of JS `String(n)` for a
non-negative integer number `n`. -/
def numToString (n : Nat) : String :=
  String.mk (natChars n)

/-- Character-level model of JS `Number.prototype.toFixed(2)` applied to the
exact rational `n / 100`: render `n` in decimal, left-pad with zeros to at
least three digits, and insert the decimal point before the last two digits.
(For every amount in the double-faithful range the float pipeline
`(n / 100).toFixed(2)` computes exactly this string.) -/
def fixed2Chars (n : Nat) : List Char :=
  let s := natChars n
  let p := List.replicate (3 - s.length) '0' ++ s
  p.take (p.length - 2) ++ '.' :: p.drop (p.length - 2)

/-- Model of `centsToDollars` from the source:
`(Number(cents || 0) / 100).toFixed(2)`; an absent amount is treated as 0. -/
def centsToDollars (cents : Option Nat) : String :=
  match cents with
  | none => String.mk (fixed2Chars 0)
  | some n => String.mk (fixed2Chars n)

/-- Uppercase hexadecimal digit for a value below 16 (as produced by JS
`encodeURIComponent`). -/
def hexDigitU (n : Nat) : Char :=
  if n < 10 then Char.ofNat ('0'.toNat + n) else Char.ofNat ('A'.toNat + n - 10)

/-- Characters `encodeURIComponent` leaves unescaped:
alphanumeric and `- _ . ! ~ * ' ( )`. -/
def isUnreserved (c : Char) : Bool :=
  c.isAlphanum || c == '-' || c == '_' || c == '.' || c == '!' ||
  c == '~' || c == '*' || c == '\'' || c == '(' || c == ')'

/-- UTF-8 bytes of a character. -/
def utf8Bytes (c : Char) : List Nat :=
  let n := c.toNat
  if n < 128 then [n]
  else if n < 2048 then [192 + n / 64, 128 + n % 64]
  else if n < 65536 then [224 + n / 4096, 128 + (n / 64) % 64, 128 + n % 64]
  else [240 + n / 262144, 128 + (n / 4096) % 64, 128 + (n / 64) % 64, 128 + n % 64]

/-- Percent-escape of one byte, uppercase hex. -/
def percentByte (b : Nat) : List Char :=
  ['%', hexDigitU (b / 16), hexDigitU (b % 16)]

/-- Model of JS `encodeURIComponent`: unreserved characters pass through,
every other character is percent-encoded byte-by-byte in UTF-8. -/
def encodeURIComponentStr (s : String) : String :=
  String.mk ((s.data.map fun c =>
    if isUnreserved c then [c] else (utf8Bytes c).foldr (fun b acc => percentByte b ++ acc) []).foldr
      (fun a b => a ++ b) [])

/-- Model of `encodeQuery` from the source: `encodeURIComponent(q)` followed
by the replacement of `%20` with `%20`, which is the identity. -/
def encodeQuery (q : String) : String :=
  encodeURIComponentStr q

/-- Does the regex `(18|19|20)\d{2}\b` match at the head of the list?
(The leading `\b` is handled by the caller, which tracks the previous
character.) -/
def vintageAt : List Char → Bool
  | c0 :: c1 :: c2 :: c3 :: rest =>
    (((c0 == '1') && ((c1 == '8') || (c1 == '9'))) || ((c0 == '2') && (c1 == '0'))) &&
    c2.isDigit && c3.isDigit &&
    (match rest with
     | [] => true
     | d :: _ => !jsWordChar d)
  | _ => false

/-- Leftmost-match search for the regex `\b(18|19|20)\d{2}\b`: scan positions
left to right, carrying whether the previous character is a word character
(for the leading `\b`), and return the four matched characters. -/
def findVintage : Bool → List Char → Option (List Char)
  | _, [] => none
  | prev, c :: rest =>
    if !prev && vintageAt (c :: rest) then some ((c :: rest).take 4)
    else findVintage (jsWordChar c) rest

/-- Model of `guessVintage` from the source:
`name.match(/\b(18|19|20)\d{2}\b/)` returning the matched text, else "NV". -/
def guessVintage (name : String) : String :=
  match findVintage false name.data with
  | some t => String.mk t
  | none => "NV"

/-- Model of `guessUnitSize` from the source: lower-case the name and test
the fixed chain of substring rules, defaulting to "750ml". -/
def guessUnitSize (name : String) : String :=
  let n := jsToLowerStr name
  if containsStr n "magnum" || containsStr n "1.5l" || containsStr n "1500" then "1.5L Magnum"
  else if containsStr n "375" then "375ml"
  else if containsStr n "500" then "500ml"
  else if containsStr n "1l" || containsStr n "1000" then "1L"
  else if containsStr n "3l" then "3L"
  else "750ml"

/-- `item_variation_data` of a catalog variation object; every field the
program reads may be absent in the JSON. -/
structure ItemVariationData where
  sku : Option String
  item_id : Option String
  name : Option String
  price_amount : Option Nat
deriving DecidableEq, Repr

/-- A catalog object of type ITEM_VARIATION as returned by the catalog
search call. -/
structure CatalogVariation where
  id : String
  item_variation_data : Option ItemVariationData
deriving DecidableEq, Repr

/-- A related object from the catalog search response; the program only
reads its type tag, id, and (for ITEM objects) `item_data?.name`. -/
structure RelatedObject where
  type : String
  id : String
  item_name : Option String
deriving DecidableEq, Repr

/-- Parsed body of the catalog search response. -/
structure CatalogResponse where
  objects : Option (List CatalogVariation)
  related_objects : Option (List RelatedObject)
deriving DecidableEq, Repr

/-- One entry of the inventory batch-retrieve-counts response.  The quantity
is an optional non-negative integer, following the data model of the
external inventory API (IN_STOCK counts at one location). -/
structure InventoryCountE where
  catalog_object_id : String
  quantity : Option Nat
deriving DecidableEq, Repr

/-- Parsed body of the inventory response. -/
structure InventoryResponse where
  counts : Option (List InventoryCountE)
deriving DecidableEq, Repr

/-- A usable feed row as built by the catalog join (the object pushed onto
`usable` in the source). -/
structure UsableRow where
  sku : String
  name : String
  variationId : String
  price : String
deriving DecidableEq, Repr

/-- Model of a JS `Map` built by repeated `set` calls: entries are prepended,
so a lookup that returns the first hit sees the most recent `set`. -/
def assocFind (m : List (String × String)) (k : String) : Option String :=
  (m.find? fun p => p.1 == k).map fun p => p.2

/-- Model of the `itemNameById` map construction: scan related objects and
for each one of type ITEM record `item_data?.name || ""` under its id. -/
def itemNamesOf (related : List RelatedObject) : List (String × String) :=
  related.foldl
    (fun m obj => if obj.type == "ITEM" then (obj.id, obj.item_name.getD "") :: m else m)
    []

/-- Display-name composition from the source: if the variation name is
non-empty and not (lower-cased) equal to "regular", the trimmed
space-separated concatenation of item name and variation name, else the
trimmed item name. -/
def composeName (itemName varName : String) : String :=
  if !(varName == "") && !(jsToLowerStr varName == "regular") then
    jsTrim (itemName ++ " " ++ varName)
  else jsTrim itemName

/-- Model of one iteration of the catalog-join loop: `none` when the
variation is skipped (`if (!sku) continue`), otherwise the pushed row. -/
def mkUsable (m : List (String × String)) (v : CatalogVariation) : Option UsableRow :=
  let d := v.item_variation_data
  match d.bind ItemVariationData.sku with
  | none => none
  | some s =>
    if s == "" then none
    else
      let itemName := ((d.bind ItemVariationData.item_id).bind (assocFind m)).getD ""
      let varName := (d.bind ItemVariationData.name).getD ""
      let fullName := composeName itemName varName
      some { sku := s
             name := if fullName == "" then s else fullName
             variationId := v.id
             price := centsToDollars (d.bind ItemVariationData.price_amount) }

/-- The `usable` list built by the catalog join, in input order. -/
def usableRows (m : List (String × String)) (variations : List CatalogVariation) :
    List UsableRow :=
  variations.filterMap (mkUsable m)

/-- Does a variation survive the catalog join, i.e. does it carry a
non-empty stock-keeping code? -/
def keepVariation (v : CatalogVariation) : Bool :=
  match v.item_variation_data.bind ItemVariationData.sku with
  | none => false
  | some s => !(s == "")

/-- The row built for a kept variation (total companion of `mkUsable`). -/
def usableOf (m : List (String × String)) (v : CatalogVariation) : UsableRow :=
  let d := v.item_variation_data
  let s := (d.bind ItemVariationData.sku).getD ""
  let itemName := ((d.bind ItemVariationData.item_id).bind (assocFind m)).getD ""
  let varName := (d.bind ItemVariationData.name).getD ""
  let fullName := composeName itemName varName
  { sku := s
    name := if fullName == "" then s else fullName
    variationId := v.id
    price := centsToDollars (d.bind ItemVariationData.price_amount) }

/-- Model of the `stockByVarId` map construction:
`set(c.catalog_object_id, String(Number(c.quantity || 0)))` for each count. -/
def buildStockMap (counts : List InventoryCountE) : List (String × String) :=
  counts.foldl
    (fun m c => (c.catalog_object_id, numToString (c.quantity.getD 0)) :: m)
    []

/-- Stock string for one row: `stockByVarId.get(u.variationId) ?? "0"`. -/
def stockFor (m : List (String × String)) (vid : String) : String :=
  (assocFind m vid).getD "0"

/-- The fixed header line of the feed file. -/
def headerStr : String :=
  "SKU|name|description|vintage|unit-size|price|stock|url|min-order|tax|offer-type|delivery-time|LWIN|imageurl"

/-- The fixed base of the shop search URL. -/
def shopSearchBase : String :=
  "https://www.magazzinonyc.com/s/shop?query="

/-- One data row of the feed: the fourteen fields joined with `|`. -/
def rowLine (m : List (String × String)) (u : UsableRow) : String :=
  jsJoin "|"
    [u.sku, u.name, "", guessVintage u.name, guessUnitSize u.name, u.price,
     stockFor m u.variationId, shopSearchBase ++ encodeQuery u.name, "",
     "Inc.tax", "R", "Next day", "", ""]

/-- The full file content: header and data rows joined with a newline, plus
a trailing newline (`lines.join("\n") + "\n"`). -/
def feedLines (rows : List String) : String :=
  jsJoin "\n" (headerStr :: rows) ++ "\n"

/-- The pure core of `main`: from the two parsed API responses to the bytes
written to the feed file. -/
def feedFile (cat : CatalogResponse) (inv : InventoryResponse) : String :=
  let m := itemNamesOf (cat.related_objects.getD [])
  let usable := usableRows m (cat.objects.getD [])
  let sm := buildStockMap (inv.counts.getD [])
  feedLines (usable.map (rowLine sm))

/-- Number of usable rows (reported in the success message). -/
def usableCount (cat : CatalogResponse) : Nat :=
  (usableRows (itemNamesOf (cat.related_objects.getD [])) (cat.objects.getD [])).length

/-- JS truthiness of an optional string (`!TOKEN` is true for an absent or
empty credential). -/
def truthy (o : Option String) : Bool :=
  match o with
  | none => false
  | some s => !(s == "")

/-- `res.ok` of the fetch API: status in the range 200–299. -/
def httpOk (status : Nat) : Bool :=
  decide (200 ≤ status) && decide (status ≤ 299)

/-- The error message thrown by `squareFetch` on a non-success status:
`Square API ${status}: ${txt}`. -/
def squareErrMsg (status : Nat) (body : String) : String :=
  "Square API " ++ numToString status ++ ": " ++ body

/-- Observable side effects of one run. -/
inductive Effect where
  | netCall : String → Effect
  | fileWrite : String → String → Effect
deriving DecidableEq, Repr

/-- Final fate of the process: crashed with a logged error message and an
exit code, or succeeded reporting a row count. -/
inductive RunResult where
  | crashed : String → Nat → RunResult
  | succeeded : Nat → RunResult
deriving DecidableEq, Repr

/-- The environment a run executes against: the two credentials, and for
each of the two HTTP calls its status, raw body text (used in error
messages) and parsed payload (used on success). -/
structure WorldEnv where
  token : Option String
  locationId : Option String
  catalogStatus : Nat
  catalogBody : String
  catalogPayload : CatalogResponse
  invStatus : Nat
  invBody : String
  invPayload : InventoryResponse
deriving DecidableEq, Repr

/-- Effect-trace model of the whole program: the module-level credential
check (which throws before any call), the two sequential `squareFetch`
calls (each throwing on a non-success status), and the terminal file write.
A thrown error is never caught before the top-level `main().catch`, which
logs it and calls `process.exit(1)`; a module-level throw likewise ends the
process with exit code 1. -/
def runProgram (env : WorldEnv) : List Effect × RunResult :=
  if !(truthy env.token && truthy env.locationId) then
    ([], .crashed "Missing SQUARE_ACCESS_TOKEN or SQUARE_LOCATION_ID secrets." 1)
  else if !httpOk env.catalogStatus then
    ([.netCall "/v2/catalog/search"],
     .crashed (squareErrMsg env.catalogStatus env.catalogBody) 1)
  else if !httpOk env.invStatus then
    ([.netCall "/v2/catalog/search", .netCall "/v2/inventory/batch-retrieve-counts"],
     .crashed (squareErrMsg env.invStatus env.invBody) 1)
  else
    ([.netCall "/v2/catalog/search", .netCall "/v2/inventory/batch-retrieve-counts",
      .fileWrite "winesearcher-feed.txt" (feedFile env.catalogPayload env.invPayload)],
     .succeeded (usableCount env.catalogPayload))

/-! ### Spec-side definitions

Each definition below renders a claim's wording, to be compared with the
source-side definitions above. -/

/-- Is position `i` preceded by a token boundary (start of string, or a
non-word character just before), given that a word character stands at `i`? -/
def boundaryBefore (l : List Char) : Nat → Bool
  | 0 => true
  | j + 1 =>
    match l[j]? with
    | some c => !jsWordChar c
    | none => false

/-- Boundary test relative to a carried previous-character flag; at position
0 the boundary holds when the virtual previous character is not a word
character. -/
def boundaryWith (prev : Bool) (l : List Char) : Nat → Bool
  | 0 => !prev
  | j + 1 =>
    match l[j]? with
    | some c => !jsWordChar c
    | none => false

/-- A four-digit vintage token (first two digits 18, 19 or 20, delimited by
word boundaries on both sides) starts at position `i` of the name. -/
def vintageTokenAt (l : List Char) (i : Nat) : Bool :=
  boundaryBefore l i && vintageAt (l.drop i)

/-- Position of the first vintage token of the name, if any. -/
def firstVintageIdx (l : List Char) : Option Nat :=
  (List.range l.length).find? (vintageTokenAt l)

/-- Vintage inference as the claim words it: the first four-digit token
whose first two digits are 18, 19 or 20, returned verbatim, else "NV". -/
def vintageSpec (name : String) : String :=
  match firstVintageIdx name.data with
  | some i => String.mk ((name.data.drop i).take 4)
  | none => "NV"

/-- The unit-size rule table, in the claim's priority order: cue substrings
paired with the label the rule yields. -/
def unitRules : List (List String × String) :=
  [(["magnum", "1.5l", "1500"], "1.5L Magnum"),
   (["375"], "375ml"),
   (["500"], "500ml"),
   (["1l", "1000"], "1L"),
   (["3l"], "3L")]

/-- Unit-size inference as the claim words it: lower-case the name, apply
the first rule whose cue substring occurs, default "750ml". -/
def unitSizeSpec (name : String) : String :=
  let n := jsToLowerStr name
  match unitRules.find? (fun r => r.1.any fun pat => containsStr n pat) with
  | some r => r.2
  | none => "750ml"

/-- Emitted display name as the claim words it: the trimmed (space-separated)
concatenation of parent item name and variation name when the variation name
is non-empty and not case-insensitively equal to "regular", else the trimmed
parent item name; when that is empty, the stock-keeping code. -/
def nameSpec (itemName varName sku : String) : String :=
  let composed :=
    if !(varName == "") && !(jsToLowerStr varName == jsToLowerStr "regular") then
      jsTrim (itemName ++ " " ++ varName)
    else jsTrim itemName
  if composed == "" then sku else composed

/-- Stock string as the claim words it: the quantity (defaulted to zero) of
the last inventory entry for the variation id, rendered as a decimal string;
"0" when no entry matches. -/
def stockSpec (counts : List InventoryCountE) (vid : String) : String :=
  match counts.reverse.find? (fun c => c.catalog_object_id == vid) with
  | none => "0"
  | some c => numToString (c.quantity.getD 0)

/-- Price string as the claim words it: the integer part of amount/100, a
decimal point, and the two-digit zero-padded remainder. -/
def decimal2Spec (n : Nat) : String :=
  numToString (n / 100) ++ "." ++
    (if n % 100 < 10 then "0" ++ numToString (n % 100) else numToString (n % 100))

/-! ### Concrete fixtures -/

/-- Catalog response of the end-to-end scenario: one variation
{sku "ABC123", parent "Chateau Test", variation name "Regular", price 2500}. -/
def catScenario : CatalogResponse :=
  ⟨some [⟨"VAR1", some ⟨some "ABC123", some "ITEM1", some "Regular", some 2500⟩⟩],
   some [⟨"ITEM", "ITEM1", some "Chateau Test"⟩]⟩

/-- Inventory response of the end-to-end scenario: count 7 for the
variation at the target location. -/
def invScenario : InventoryResponse :=
  ⟨some [⟨"VAR1", some 7⟩]⟩

/-- Catalog response with a stock-keeping code that contains the pipe
delimiter. -/
def catPipe : CatalogResponse :=
  ⟨some [⟨"VAR2", some ⟨some "AB|C3", some "ITEM2", some "Regular", some 1000⟩⟩],
   some [⟨"ITEM", "ITEM2", some "Red Wine"⟩]⟩

/-- Empty inventory response. -/
def invEmpty : InventoryResponse := ⟨some []⟩

/-- Environment with both credentials absent. -/
def envMissing : WorldEnv :=
  ⟨none, none, 200, "", ⟨none, none⟩, 200, "", ⟨none⟩⟩

/-! ### Helper lemmas -/

theorem strmk_append (a b : List Char) : String.mk a ++ String.mk b = String.mk (a ++ b) :=
  rfl

theorem natCharsAux_irrel :
    ∀ f₁ f₂ n : Nat, n < f₁ → n < f₂ → natCharsAux f₁ n = natCharsAux f₂ n := by
  intro f₁
  induction f₁ with
  | zero => intro f₂ n h₁ _; omega
  | succ g ih =>
    intro f₂ n h₁ h₂
    cases f₂ with
    | zero => omega
    | succ h =>
      simp only [natCharsAux]
      by_cases hn : n < 10
      · simp [hn]
      · have hq : n / 10 < n := Nat.div_lt_self (by omega) (by omega)
        simp only [hn, if_false]
        rw [ih h (n / 10) (by omega) (by omega)]

theorem natChars_eq (n : Nat) :
    natChars n =
      if n < 10 then [Nat.digitChar n]
      else natChars (n / 10) ++ [Nat.digitChar (n % 10)] := by
  show natCharsAux (n + 1) n = _
  simp only [natCharsAux]
  by_cases hn : n < 10
  · simp [hn]
  · have hq : n / 10 < n := Nat.div_lt_self (by omega) (by omega)
    simp only [hn, if_false]
    rw [natCharsAux_irrel n (n / 10 + 1) (n / 10) (by omega) (by omega)]
    rfl

theorem natChars_small {n : Nat} (h : n < 10) : natChars n = [Nat.digitChar n] := by
  rw [natChars_eq]; simp [h]

theorem natChars_step {q r : Nat} (hq : 1 ≤ q) (hr : r < 10) :
    natChars (10 * q + r) = natChars q ++ [Nat.digitChar r] := by
  rw [natChars_eq]
  have h1 : ¬(10 * q + r < 10) := by omega
  have h2 : (10 * q + r) / 10 = q := by
    rw [Nat.mul_add_div (by omega)]
    simp [Nat.div_eq_of_lt hr]
  have h3 : (10 * q + r) % 10 = r := by
    rw [Nat.mul_add_mod]
    exact Nat.mod_eq_of_lt hr
  simp [h1, h2, h3]

theorem natChars_ne_nil (n : Nat) : natChars n ≠ [] := by
  rw [natChars_eq]
  by_cases h : n < 10 <;> simp [h]

theorem digitChar_zero : Nat.digitChar 0 = '0' :=
  rfl

theorem fixed2Chars_eq (n : Nat) :
    fixed2Chars n =
      natChars (n / 100) ++ '.' ::
        (if n % 100 < 10 then '0' :: natChars (n % 100) else natChars (n % 100)) := by
  by_cases hA : n < 10
  · have hs : natChars n = [Nat.digitChar n] := natChars_small hA
    have h100 : n / 100 = 0 := Nat.div_eq_of_lt (by omega)
    have hm : n % 100 = n := Nat.mod_eq_of_lt (by omega)
    simp [fixed2Chars, hs, h100, hm, hA, natChars_small, digitChar_zero, List.replicate,
      List.take, List.drop]
  · by_cases hB : n < 100
    · have hq : n / 10 < 10 := by omega
      have hq1 : 1 ≤ n / 10 := by omega
      have hsplit : n = 10 * (n / 10) + n % 10 := by omega
      have hs : natChars n = [Nat.digitChar (n / 10), Nat.digitChar (n % 10)] := by
        conv_lhs => rw [hsplit]
        rw [natChars_step hq1 (by omega), natChars_small hq]
        rfl
      have h100 : n / 100 = 0 := Nat.div_eq_of_lt (by omega)
      have hm : n % 100 = n := Nat.mod_eq_of_lt (by omega)
      simp [fixed2Chars, hs, h100, hm, hA, natChars_small, digitChar_zero, List.replicate,
        List.take, List.drop]
    · set q := n / 100 with hqdef
      set r := n % 100 with hrdef
      have hq1 : 1 ≤ q := by omega
      have hr : r < 100 := by omega
      have hsplit : n = 10 * (10 * q + r / 10) + r % 10 := by omega
      have hs : natChars n = natChars q ++ [Nat.digitChar (r / 10), Nat.digitChar (r % 10)] := by
        conv_lhs => rw [hsplit]
        rw [natChars_step (by omega) (by omega), natChars_step hq1 (by omega)]
        simp
      have hlen : 1 ≤ (natChars q).length := by
        cases hc : natChars q with
        | nil => exact absurd hc (natChars_ne_nil q)
        | cons a t => simp
      have htail : (if r < 10 then '0' :: natChars r else natChars r)
          = [Nat.digitChar (r / 10), Nat.digitChar (r % 10)] := by
        by_cases hr10 : r < 10
        · have h1 : r / 10 = 0 := by omega
          have h2 : r % 10 = r := by omega
          simp [hr10, natChars_small hr10, h1, h2, digitChar_zero]
        · rw [if_neg hr10]
          have hx : r = 10 * (r / 10) + r % 10 := by omega
          conv_lhs => rw [hx]
          rw [natChars_step (by omega) (by omega), natChars_small (by omega)]
          rfl
      have hpadlen :
          3 - (natChars q ++ [Nat.digitChar (r / 10), Nat.digitChar (r % 10)]).length = 0 := by
        simp only [List.length_append, List.length_cons, List.length_nil]
        omega
      have hlen2 :
          (natChars q ++ [Nat.digitChar (r / 10), Nat.digitChar (r % 10)]).length - 2
            = (natChars q).length := by
        simp only [List.length_append, List.length_cons, List.length_nil]
        omega
      simp only [fixed2Chars, hs, hpadlen, List.replicate, List.nil_append, hlen2,
        List.take_left, List.drop_left]
      rw [htail]

theorem decimal2Spec_data (n : Nat) :
    decimal2Spec n = String.mk (natChars (n / 100) ++ '.' ::
      (if n % 100 < 10 then '0' :: natChars (n % 100) else natChars (n % 100))) := by
  rw [decimal2Spec]
  by_cases h : n % 100 < 10
  · rw [if_pos h, if_pos h]
    show String.mk (natChars (n / 100)) ++ String.mk ['.'] ++
      (String.mk ['0'] ++ String.mk (natChars (n % 100))) = _
    rw [strmk_append, strmk_append, strmk_append]
    apply congrArg
    simp
  · rw [if_neg h, if_neg h]
    show String.mk (natChars (n / 100)) ++ String.mk ['.'] ++ String.mk (natChars (n % 100)) = _
    rw [strmk_append, strmk_append]
    apply congrArg
    simp

/-! ### Claim theorems -/

/-- C8: price conversion maps every minor-currency-unit amount to a decimal
string with exactly two fraction digits whose value is the amount divided by
100 — integer part `amount / 100`, then a point, then the zero-padded
two-digit remainder `amount % 100` — with 4599 rendered as "45.99", and an
absent amount rendered as "0.00". -/
theorem c8_price_conversion :
    (∀ c : Option Nat, centsToDollars c = decimal2Spec (c.getD 0)) ∧
    centsToDollars none = "0.00" ∧ centsToDollars (some 4599) = "45.99" := by
  refine ⟨?_, by decide, by decide⟩
  intro c
  have key : ∀ n : Nat, String.mk (fixed2Chars n) = decimal2Spec n := by
    intro n
    rw [decimal2Spec_data, fixed2Chars_eq]
  cases c with
  | none => exact key 0
  | some n => exact key n

/-- C7: for every (possibly empty) list of data rows the written file is the
header line and the data rows, each line followed by a single newline — so
the file begins with the exact header line, consecutive lines are separated
by one newline, the file ends with a trailing newline, and with zero rows it
consists of the header and the trailing newline only. -/
theorem c7_feed_file_shape :
    (∀ rows : List String,
      feedLines rows = strConcat ((headerStr :: rows).map fun l => l ++ "\n")) ∧
    feedLines [] = headerStr ++ "\n" := by
  have key : ∀ (h : String) (rows : List String),
      jsJoin "\n" (h :: rows) ++ "\n" = strConcat ((h :: rows).map fun l => l ++ "\n") := by
    intro h rows
    induction rows generalizing h with
    | nil =>
      show h ++ "\n" = (h ++ "\n") ++ ""
      rw [String.append_empty]
    | cons r rest ih =>
      show (h ++ "\n" ++ jsJoin "\n" (r :: rest)) ++ "\n" = _
      rw [String.append_assoc (h ++ "\n") (jsJoin "\n" (r :: rest)) "\n", ih r]
      rfl
  refine ⟨fun rows => key headerStr rows, ?_⟩
  show jsJoin "\n" [headerStr] ++ "\n" = headerStr ++ "\n"
  rfl

theorem foldl_cons_eq_reverse_map {α β : Type} (e : α → β) :
    ∀ (l : List α) (acc : List β),
      l.foldl (fun m c => e c :: m) acc = (l.map e).reverse ++ acc := by
  intro l
  induction l with
  | nil => intro acc; simp
  | cons a t ih =>
    intro acc
    show t.foldl (fun m c => e c :: m) (e a :: acc) = ((a :: t).map e).reverse ++ acc
    rw [ih (e a :: acc)]
    simp

/-- C2: in the inventory join, a row whose variation identifier has no entry
in the inventory counts gets stock "0"; a row with an entry gets that
entry's quantity, defaulted to zero when absent, rendered as a decimal
string (in a JS map, the last `set` for an identifier wins); and every
emitted stock string is the decimal rendering of a non-negative integer,
with a reported count of 0 rendered as "0". -/
theorem c2_stock_join :
    ∀ (counts : List InventoryCountE) (vid : String),
      stockFor (buildStockMap counts) vid = stockSpec counts vid ∧
      (∃ n : Nat, stockFor (buildStockMap counts) vid = numToString n) ∧
      numToString 0 = "0" := by
  intro counts vid
  have hb : buildStockMap counts =
      (counts.map fun c => (c.catalog_object_id, numToString (c.quantity.getD 0))).reverse := by
    rw [buildStockMap, foldl_cons_eq_reverse_map _ counts []]
    simp
  have hp : ((fun pr : String × String => pr.1 == vid) ∘
        (fun c : InventoryCountE => (c.catalog_object_id, numToString (c.quantity.getD 0))))
      = fun c : InventoryCountE => c.catalog_object_id == vid := rfl
  have hmain : stockFor (buildStockMap counts) vid = stockSpec counts vid := by
    rw [stockFor, assocFind, hb, ← List.map_reverse, List.find?_map, hp]
    cases hfind : counts.reverse.find? (fun c => c.catalog_object_id == vid) with
    | none => simp [stockSpec, hfind]
    | some c => simp [stockSpec, hfind]
  refine ⟨hmain, ?_, by decide⟩
  rw [hmain, stockSpec]
  cases hfind : counts.reverse.find? (fun c => c.catalog_object_id == vid) with
  | none => exact ⟨0, by decide⟩
  | some c => exact ⟨c.quantity.getD 0, rfl⟩

theorem mkUsable_eq_ite (m : List (String × String)) (v : CatalogVariation) :
    mkUsable m v = if keepVariation v then some (usableOf m v) else none := by
  rw [mkUsable, keepVariation, usableOf]
  cases hsku : v.item_variation_data.bind ItemVariationData.sku with
  | none => rfl
  | some s =>
    by_cases he : s == ""
    · simp [he]
    · simp only [he, Bool.not_false, if_true]
      simp [hsku]

/-- C5: the catalog join drops exactly the variation records lacking a
non-empty stock-keeping code — the usable rows are the kept variations in
order, each mapped to its row, so duplicates of a stock-keeping code are
neither deduplicated nor rejected — and every produced row has a non-empty
stock-keeping code. -/
theorem c5_catalog_join :
    (∀ (m : List (String × String)) (vs : List CatalogVariation),
      usableRows m vs = (vs.filter keepVariation).map (usableOf m)) ∧
    (∀ (m : List (String × String)) (vs : List CatalogVariation) (u : UsableRow),
      u ∈ usableRows m vs → u.sku ≠ "") := by
  have hchar : ∀ (m : List (String × String)) (vs : List CatalogVariation),
      usableRows m vs = (vs.filter keepVariation).map (usableOf m) := by
    intro m vs
    induction vs with
    | nil => rfl
    | cons v t ih =>
      rw [usableRows, List.filterMap_cons]
      rw [usableRows] at ih
      by_cases hk : keepVariation v
      · rw [mkUsable_eq_ite, if_pos hk, List.filter_cons_of_pos hk, List.map_cons, ih]
      · rw [mkUsable_eq_ite, if_neg hk, List.filter_cons_of_neg hk, ih]
  refine ⟨hchar, ?_⟩
  intro m vs u hu
  rw [hchar] at hu
  obtain ⟨v, hv, rfl⟩ := List.mem_map.mp hu
  have hk : keepVariation v = true := (List.mem_filter.mp hv).2
  rw [keepVariation] at hk
  cases hsku : v.item_variation_data.bind ItemVariationData.sku with
  | none => rw [hsku] at hk; cases hk
  | some s =>
    rw [hsku] at hk
    have hs : ¬(s = "") := by simpa using hk
    show (usableOf m v).sku ≠ ""
    rw [usableOf]
    simpa [hsku] using hs

/-- C5 witness: the join of a single variation carrying stock-keeping code
"A" yields a row whose code is non-empty. -/
theorem c5_catalog_join_witness :
    (usableOf [] ⟨"V", some ⟨some "A", none, none, none⟩⟩).sku ≠ "" :=
  c5_catalog_join.2 [] [⟨"V", some ⟨some "A", none, none, none⟩⟩]
    (usableOf [] ⟨"V", some ⟨some "A", none, none, none⟩⟩) (by decide)

/-- C6: for every row produced by the catalog join, the emitted name is the
trimmed space-separated concatenation of parent item name and variation name
when the variation name is non-empty and not case-insensitively "regular",
else the trimmed parent item name (empty when the parent item is absent from
the related-objects mapping), falling back to the stock-keeping code when the
composed name is empty — so the emitted name is never empty. -/
theorem c6_display_name :
    ∀ (m : List (String × String)) (v : CatalogVariation) (u : UsableRow),
      mkUsable m v = some u →
      u.name = nameSpec (((v.item_variation_data.bind ItemVariationData.item_id).bind
                           (assocFind m)).getD "")
                        ((v.item_variation_data.bind ItemVariationData.name).getD "")
                        u.sku ∧
      u.name ≠ "" := by
  intro m v u hu
  rw [mkUsable] at hu
  cases hsku : v.item_variation_data.bind ItemVariationData.sku with
  | none =>
    simp only [hsku] at hu
    exact Option.noConfusion hu
  | some s =>
    simp only [hsku] at hu
    by_cases he : s == ""
    · rw [if_pos he] at hu; cases hu
    · rw [if_neg he] at hu
      have hlow : jsToLowerStr "regular" = "regular" := by decide
      cases hu
      constructor
      · rw [nameSpec, hlow, composeName]
      · show (if composeName _ _ == "" then s else composeName _ _) ≠ ""
        by_cases hf : composeName
            (((v.item_variation_data.bind ItemVariationData.item_id).bind
               (assocFind m)).getD "")
            ((v.item_variation_data.bind ItemVariationData.name).getD "") == ""
        · rw [if_pos hf]
          simpa using he
        · rw [if_neg hf]
          simpa using hf

theorem boundaryWith_succ (prev : Bool) (c : Char) (rest : List Char) (i : Nat) :
    boundaryWith prev (c :: rest) (i + 1) = boundaryWith (jsWordChar c) rest i := by
  cases i with
  | zero => simp [boundaryWith]
  | succ j => simp [boundaryWith]

theorem findVintage_eq (l : List Char) :
    ∀ prev : Bool,
      findVintage prev l =
        ((List.range l.length).find? fun i =>
            boundaryWith prev l i && vintageAt (l.drop i)).map
          fun i => (l.drop i).take 4 := by
  induction l with
  | nil => intro prev; rfl
  | cons c rest ih =>
    intro prev
    show (if !prev && vintageAt (c :: rest) then some ((c :: rest).take 4)
          else findVintage (jsWordChar c) rest) = _
    rw [List.length_cons, List.range_succ_eq_map]
    by_cases hm : !prev && vintageAt (c :: rest)
    · rw [if_pos hm]
      rw [List.find?_cons_of_pos _ (by simpa [boundaryWith] using hm)]
      simp
    · rw [if_neg hm]
      rw [List.find?_cons_of_neg _ (by simpa [boundaryWith] using hm)]
      rw [List.find?_map]
      have hq : ((fun i => boundaryWith prev (c :: rest) i && vintageAt ((c :: rest).drop i)) ∘
            Nat.succ)
          = fun i => boundaryWith (jsWordChar c) rest i && vintageAt (rest.drop i) := by
        funext i
        simp only [Function.comp_apply, Nat.succ_eq_add_one, boundaryWith_succ,
          List.drop_succ_cons]
      have hf : ((fun i => List.take 4 (List.drop i (c :: rest))) ∘ Nat.succ)
          = fun i => List.take 4 (List.drop i rest) := by
        funext i
        simp only [Function.comp_apply, Nat.succ_eq_add_one, List.drop_succ_cons]
      rw [hq, ih (jsWordChar c), Option.map_map, hf]

/-- C3: vintage inference returns the first four-digit token of the name
(delimited by word boundaries) whose first two digits are 18, 19 or 20,
verbatim, and the literal "NV" when no such token occurs. -/
theorem c3_vintage :
    ∀ name : String, guessVintage name = vintageSpec name := by
  intro name
  rw [guessVintage, vintageSpec, firstVintageIdx, findVintage_eq name.data false]
  have hpred : (fun i => boundaryWith false name.data i && vintageAt (name.data.drop i))
      = vintageTokenAt name.data := by
    funext i
    cases i with
    | zero => rfl
    | succ j => rfl
  rw [hpred]
  cases hfind : (List.range name.data.length).find? (vintageTokenAt name.data) with
  | none => rfl
  | some i => rfl

/-- C4: unit-size inference equals the first-match-wins application of the
fixed rule table on the lower-cased name — "magnum"/"1.5l"/"1500" →
"1.5L Magnum", else "375" → "375ml", else "500" → "500ml", else
"1l"/"1000" → "1L", else "3l" → "3L", else "750ml" — so a name containing
both "magnum" and "375" yields "1.5L Magnum", and a name with no size cue
yields "750ml". -/
theorem c4_unit_size :
    ∀ name : String,
      guessUnitSize name = unitSizeSpec name ∧
      (containsStr (jsToLowerStr name) "magnum" = true ∧
         containsStr (jsToLowerStr name) "375" = true →
        guessUnitSize name = "1.5L Magnum") ∧
      (containsStr (jsToLowerStr name) "magnum" = false ∧
         containsStr (jsToLowerStr name) "1.5l" = false ∧
         containsStr (jsToLowerStr name) "1500" = false ∧
         containsStr (jsToLowerStr name) "375" = false ∧
         containsStr (jsToLowerStr name) "500" = false ∧
         containsStr (jsToLowerStr name) "1l" = false ∧
         containsStr (jsToLowerStr name) "1000" = false ∧
         containsStr (jsToLowerStr name) "3l" = false →
        guessUnitSize name = "750ml") := by
  intro name
  refine ⟨?_, ?_, ?_⟩
  · by_cases h1 : containsStr (jsToLowerStr name) "magnum" <;>
    by_cases h2 : containsStr (jsToLowerStr name) "1.5l" <;>
    by_cases h3 : containsStr (jsToLowerStr name) "1500" <;>
    by_cases h4 : containsStr (jsToLowerStr name) "375" <;>
    by_cases h5 : containsStr (jsToLowerStr name) "500" <;>
    by_cases h6 : containsStr (jsToLowerStr name) "1l" <;>
    by_cases h7 : containsStr (jsToLowerStr name) "1000" <;>
    by_cases h8 : containsStr (jsToLowerStr name) "3l" <;>
    simp [guessUnitSize, unitSizeSpec, unitRules, h1, h2, h3, h4, h5, h6, h7, h8]
  · intro h
    simp [guessUnitSize, h.1]
  · intro h
    simp [guessUnitSize, h.1, h.2.1, h.2.2.1, h.2.2.2.1, h.2.2.2.2.1, h.2.2.2.2.2.1,
      h.2.2.2.2.2.2.1, h.2.2.2.2.2.2.2]

/-- C4 witness: a name with both "magnum" and "375" yields "1.5L Magnum";
a name with no size cue yields "750ml". -/
theorem c4_unit_size_witness :
    guessUnitSize "Magnum 375" = "1.5L Magnum" ∧ guessUnitSize "Red Wine" = "750ml" :=
  ⟨(c4_unit_size "Magnum 375").2.1 (by decide),
   (c4_unit_size "Red Wine").2.2 (by decide)⟩

/-- C9: when either credential is absent (or empty) the program fails with
no network call and no file write; a non-success status from either call
crashes the run right after that call with an error carrying the status code
and the raw response body, with no retry (each endpoint is called at most
once, as the exact traces show) and no file write; any crash exits with a
non-zero code and writes nothing; and the only file write that can occur is
the single write of the full feed file on the all-success path. -/
theorem c9_error_handling :
    ∀ env : WorldEnv,
      ((truthy env.token = false ∨ truthy env.locationId = false) →
        (runProgram env).1 = [] ∧
        (runProgram env).2 =
          RunResult.crashed "Missing SQUARE_ACCESS_TOKEN or SQUARE_LOCATION_ID secrets." 1) ∧
      (truthy env.token = true → truthy env.locationId = true →
        httpOk env.catalogStatus = false →
        (runProgram env).1 = [Effect.netCall "/v2/catalog/search"] ∧
        (runProgram env).2 =
          RunResult.crashed (squareErrMsg env.catalogStatus env.catalogBody) 1) ∧
      (truthy env.token = true → truthy env.locationId = true →
        httpOk env.catalogStatus = true → httpOk env.invStatus = false →
        (runProgram env).1 =
          [Effect.netCall "/v2/catalog/search",
           Effect.netCall "/v2/inventory/batch-retrieve-counts"] ∧
        (runProgram env).2 =
          RunResult.crashed (squareErrMsg env.invStatus env.invBody) 1) ∧
      (truthy env.token = true → truthy env.locationId = true →
        httpOk env.catalogStatus = true → httpOk env.invStatus = true →
        (runProgram env).1 =
          [Effect.netCall "/v2/catalog/search",
           Effect.netCall "/v2/inventory/batch-retrieve-counts",
           Effect.fileWrite "winesearcher-feed.txt"
             (feedFile env.catalogPayload env.invPayload)] ∧
        (runProgram env).2 = RunResult.succeeded (usableCount env.catalogPayload)) ∧
      (∀ p c, Effect.fileWrite p c ∈ (runProgram env).1 →
        p = "winesearcher-feed.txt" ∧ c = feedFile env.catalogPayload env.invPayload) ∧
      (∀ msg code, (runProgram env).2 = RunResult.crashed msg code →
        code ≠ 0 ∧ ∀ p c, Effect.fileWrite p c ∉ (runProgram env).1) := by
  intro env
  cases hc : truthy env.token && truthy env.locationId with
  | false =>
    have hrun : runProgram env =
        ([], RunResult.crashed "Missing SQUARE_ACCESS_TOKEN or SQUARE_LOCATION_ID secrets." 1) := by
      rw [runProgram]
      simp [hc]
    refine ⟨fun _ => ⟨by rw [hrun], by rw [hrun]⟩, ?_, ?_, ?_, ?_, ?_⟩
    · intro ha hb _
      rw [ha, hb] at hc
      simp at hc
    · intro ha hb _ _
      rw [ha, hb] at hc
      simp at hc
    · intro ha hb _ _
      rw [ha, hb] at hc
      simp at hc
    · intro p c hmem
      rw [hrun] at hmem
      simp at hmem
    · intro msg code hres
      rw [hrun] at hres
      refine ⟨?_, ?_⟩
      · cases hres
        omega
      · intro p c hmem
        rw [hrun] at hmem
        simp at hmem
  | true =>
    have ha : truthy env.token = true := by
      cases h : truthy env.token
      · rw [h] at hc; simp at hc
      · rfl
    have hb : truthy env.locationId = true := by
      cases h : truthy env.locationId
      · rw [h] at hc; simp at hc
      · rfl
    cases h2 : httpOk env.catalogStatus with
    | false =>
      have hrun : runProgram env =
          ([Effect.netCall "/v2/catalog/search"],
           RunResult.crashed (squareErrMsg env.catalogStatus env.catalogBody) 1) := by
        rw [runProgram]
        simp [hc, h2]
      refine ⟨?_, fun _ _ _ => ⟨by rw [hrun], by rw [hrun]⟩, ?_, ?_, ?_, ?_⟩
      · intro h
        rcases h with h | h
        · rw [ha] at h; cases h
        · rw [hb] at h; cases h
      · intro _ _ hcat _
        simp at hcat
      · intro _ _ hcat _
        simp at hcat
      · intro p c hmem
        rw [hrun] at hmem
        simp at hmem
      · intro msg code hres
        rw [hrun] at hres
        refine ⟨?_, ?_⟩
        · cases hres
          omega
        · intro p c hmem
          rw [hrun] at hmem
          simp at hmem
    | true =>
      cases h3 : httpOk env.invStatus with
      | false =>
        have hrun : runProgram env =
            ([Effect.netCall "/v2/catalog/search",
              Effect.netCall "/v2/inventory/batch-retrieve-counts"],
             RunResult.crashed (squareErrMsg env.invStatus env.invBody) 1) := by
          rw [runProgram]
          simp [hc, h2, h3]
        refine ⟨?_, ?_, fun _ _ _ _ => ⟨by rw [hrun], by rw [hrun]⟩, ?_, ?_, ?_⟩
        · intro h
          rcases h with h | h
          · rw [ha] at h; cases h
          · rw [hb] at h; cases h
        · intro _ _ hcat
          simp at hcat
        · intro _ _ _ hinv
          simp at hinv
        · intro p c hmem
          rw [hrun] at hmem
          simp at hmem
        · intro msg code hres
          rw [hrun] at hres
          refine ⟨?_, ?_⟩
          · cases hres
            omega
          · intro p c hmem
            rw [hrun] at hmem
            simp at hmem
      | true =>
        have hrun : runProgram env =
            ([Effect.netCall "/v2/catalog/search",
              Effect.netCall "/v2/inventory/batch-retrieve-counts",
              Effect.fileWrite "winesearcher-feed.txt"
                (feedFile env.catalogPayload env.invPayload)],
             RunResult.succeeded (usableCount env.catalogPayload)) := by
          rw [runProgram]
          simp [hc, h2, h3]
        refine ⟨?_, ?_, ?_, fun _ _ _ _ => ⟨by rw [hrun], by rw [hrun]⟩, ?_, ?_⟩
        · intro h
          rcases h with h | h
          · rw [ha] at h; cases h
          · rw [hb] at h; cases h
        · intro _ _ hcat
          simp at hcat
        · intro _ _ _ hinv
          simp at hinv
        · intro p c hmem
          rw [hrun] at hmem
          simpa using hmem
        · intro msg code hres
          rw [hrun] at hres
          cases hres

set_option maxRecDepth 8000 in
/-- C1 counterexample: on the single-variation input of the end-to-end
scenario the pipeline does not produce the row string claimed by the spec,
`ABC123|Chateau Test|||NV|750ml|25.00|7|<search-url>||Inc.tax|R|Next day||`,
because that string has three pipes between the name and the vintage —
fifteen fields — while the program emits fourteen fields. -/
theorem c1_end_to_end_counterexample :
    feedFile catScenario invScenario ≠
      headerStr ++ "\n" ++
        "ABC123|Chateau Test|||NV|750ml|25.00|7|https://www.magazzinonyc.com/s/shop?query=Chateau%20Test||Inc.tax|R|Next day||"
        ++ "\n" := by
  decide

set_option maxRecDepth 8000 in
/-- C1 (amended): for the single-variation input {sku "ABC123", parent item
name "Chateau Test", variation name "Regular", price 2500 minor units} with
an inventory count of 7 at the target location, the output file is the
header line followed by exactly one data row, and that data row is exactly
`ABC123|Chateau Test||NV|750ml|25.00|7|<search-url>||Inc.tax|R|Next day||`
(one empty description field between name and vintage, fourteen fields in
all, with the percent-encoded search URL for "Chateau Test"). -/
theorem c1_end_to_end :
    feedFile catScenario invScenario =
      headerStr ++ "\n" ++
        "ABC123|Chateau Test||NV|750ml|25.00|7|https://www.magazzinonyc.com/s/shop?query=Chateau%20Test||Inc.tax|R|Next day||"
        ++ "\n" := by
  decide

set_option maxRecDepth 8000 in
/-- C10: field values are joined with the pipe delimiter without escaping or
sanitization, so for a variation whose stock-keeping code contains "|"
(here "AB|C3") the emitted data row, split on "|", has fifteen fields —
more than the fourteen of the fixed format. -/
theorem c10_pipe_injection :
    ((jsSplit '|' ((jsSplit '\n' (feedFile catPipe invEmpty)).getD 1 "")).length = 15 ∧
      14 < 15) := by
  exact ⟨by decide, by decide⟩

/-- C9 witness: with both credentials absent the run issues no network call
and no file write, and crashes with exit code 1. -/
theorem c9_error_handling_witness :
    (runProgram envMissing).1 = [] ∧
    (runProgram envMissing).2 =
      RunResult.crashed "Missing SQUARE_ACCESS_TOKEN or SQUARE_LOCATION_ID secrets." 1 :=
  (c9_error_handling envMissing).1 (Or.inl rfl)

/-- C6 witness: the end-to-end scenario's variation (variation name
"Regular") is emitted under the trimmed parent name "Chateau Test", which is
non-empty. -/
theorem c6_display_name_witness :
    (⟨"ABC123", "Chateau Test", "VAR1", "25.00"⟩ : UsableRow).name =
      nameSpec "Chateau Test" "Regular" "ABC123" ∧
    (⟨"ABC123", "Chateau Test", "VAR1", "25.00"⟩ : UsableRow).name ≠ "" :=
  c6_display_name [("ITEM1", "Chateau Test")]
    ⟨"VAR1", some ⟨some "ABC123", some "ITEM1", some "Regular", some 2500⟩⟩
    ⟨"ABC123", "Chateau Test", "VAR1", "25.00"⟩ (by decide)

end WinesearcherFeed
